import Mathlib

/-!
Verification development for a minimal virtual-DOM library (`src/view.ts`,
`src/app.ts`, `src/action.ts`, `src/index.ts`).

The TypeScript source is shallowly embedded below:
* the virtual tree type `VNode | string | number` becomes `NodeType`;
* attribute mappings (JS objects with unique keys, insertion-ordered) become
  association lists `List (String × AttrValue)`; a callback value is modelled
  by an opaque identifier (`AttrValue.fn`), two callbacks being `!==` exactly
  when their identifiers differ;
* the real DOM is modelled by `DomNode`; every primitive DOM call the
  reconciler issues against the existing tree is recorded in a `Mutation`
  trace, and the updated tree is returned alongside the trace.
-/

namespace VDom

/-- An attribute value: `string | Function` in the source.  A function is
opaque; its identifier models JS reference identity. -/
inductive AttrValue where
  | str (s : String)
  | fn (id : Nat)
deriving DecidableEq, Repr

/-- `type Attributes = { [key: string]: string | Function }`: a JS object,
modelled as an insertion-ordered association list with (by JS semantics)
unique keys. -/
abbrev Attributes := List (String × AttrValue)

/-- `type NodeType = VNode | string | number`, with
`interface VNode { nodeName; attributes; children }` folded in as the
`vnode` constructor. -/
inductive NodeType where
  | vnode (nodeName : String) (attributes : Attributes) (children : List NodeType)
  | str (s : String)
  | num (n : Int)
deriving Repr

/-- `function h(nodeName, attributes, ...children) { return { nodeName, attributes, children } }` -/
def h (nodeName : String) (attributes : Attributes) (children : List NodeType) : NodeType :=
  NodeType.vnode nodeName attributes children

/-- `isVNode(node)`: `typeof node !== "string" && typeof node !== "number"`. -/
def isVNode : NodeType → Bool
  | NodeType.vnode _ _ _ => true
  | NodeType.str _ => false
  | NodeType.num _ => false

/-- The JS `typeof` operator restricted to the values of `NodeType`. -/
def typeOf : NodeType → String
  | NodeType.vnode _ _ _ => "object"
  | NodeType.str _ => "string"
  | NodeType.num _ => "number"

/-- `isEventAttr(attribute)`: `/^on/.test(attribute)`, i.e. the name starts
with "on". -/
def isEventAttr (attrName : String) : Bool :=
  attrName.take 2 == "on"

/-- `attribute.slice(2)`: the event name with the "on" prefix removed. -/
def eventNameOf (attrName : String) : String :=
  attrName.drop 2

/-- Property access `attributes.value` on a JS object: the binding of the key
"value" when present, `undefined` (`none`) otherwise. -/
def attrsValue (attrs : Attributes) : Option AttrValue :=
  (attrs.find? (fun p => p.1 == "value")).map Prod.snd

/-- The comparable content of `JSON.stringify(attributes)`: key/value pairs in
insertion order, function-valued entries omitted (as `JSON.stringify` does).
Two attribute objects (unique, non-numeric keys) serialize to the same JSON
string exactly when these lists are equal. -/
def stringifyAttrs (attrs : Attributes) : List (String × String) :=
  attrs.filterMap (fun p =>
    match p.2 with
    | AttrValue.str s => some (p.1, s)
    | AttrValue.fn _ => none)

/-- String coercion of an attribute value, as applied by
`target.setAttribute(attribute, attributes[attribute] as string)` when the
value is a callback (JS stringifies the function). -/
def attrToString : AttrValue → String
  | AttrValue.str s => s
  | AttrValue.fn id => "function " ++ toString id

/-- The strict inequality `oldNode !== newNode` as evaluated under the guard
`!isVNode(oldNode)` with `typeof oldNode === typeof newNode`: a primitive
value comparison.  (The remaining cases are unreachable at the lone call
site; JS reference inequality is conservatively `true` there.) -/
def leafNe : NodeType → NodeType → Bool
  | NodeType.str a, NodeType.str b => a != b
  | NodeType.num a, NodeType.num b => a != b
  | _, _ => true

/-- `enum ChangedType { None, Type, Text, Node, Value, Attr }`.  `Type` is a
Lean keyword, so the constructors carry a `Changed` suffix; the comments give
the source names. -/
inductive ChangedType where
  /-- source: `None` (差分なし) -/
  | None
  /-- source: `Type` (nodeの型が違う) -/
  | TypeChanged
  /-- source: `Text` (テキストノードが違う) -/
  | TextChanged
  /-- source: `Node` (ノード名が違う) -/
  | NodeChanged
  /-- source: `Value` (inputのvalueが違う) -/
  | ValueChanged
  /-- source: `Attr` (属性が違う) -/
  | AttrChanged
deriving DecidableEq, Repr

/-- `detectVirtualDOMDifference(oldNode, newNode)` for defined arguments. -/
def detectVirtualDOMDifference (oldNode newNode : NodeType) : ChangedType :=
  if typeOf oldNode ≠ typeOf newNode then ChangedType.TypeChanged
  else if !isVNode oldNode && leafNe oldNode newNode then ChangedType.TextChanged
  else
    match oldNode, newNode with
    | NodeType.vnode oldName oldAttrs _, NodeType.vnode newName newAttrs _ =>
      if oldName ≠ newName then ChangedType.NodeChanged
      else if attrsValue oldAttrs ≠ attrsValue newAttrs then ChangedType.ValueChanged
      else if stringifyAttrs oldAttrs ≠ stringifyAttrs newAttrs then ChangedType.AttrChanged
      else ChangedType.None
    | _, _ => ChangedType.None

/-- `typeof` extended to a possibly-`undefined` argument. -/
def typeOfOpt : Option NodeType → String
  | none => "undefined"
  | some n => typeOf n

/-- `isVNode` applied to a possibly-`undefined` argument:
`typeof undefined` is neither "string" nor "number", so the guard holds. -/
def isVNodeOpt : Option NodeType → Bool
  | none => true
  | some n => isVNode n

/-- `oldNode !== newNode` for possibly-`undefined` leaves:
`undefined !== undefined` is `false`. -/
def leafNeOpt : Option NodeType → Option NodeType → Bool
  | some a, some b => leafNe a b
  | none, none => false
  | _, _ => true

/-- `detectVirtualDOMDifference` under JS dynamic semantics when either
argument may be `undefined` (the `Option<AbstractNode>` signature of the
specification).  Reading `oldNode.nodeName` off `undefined` throws a
`TypeError`, modelled as `Except.error`. -/
def detectVirtualDOMDifferenceOpt (oldNode newNode : Option NodeType) :
    Except String ChangedType :=
  if typeOfOpt oldNode ≠ typeOfOpt newNode then Except.ok ChangedType.TypeChanged
  else if !isVNodeOpt oldNode && leafNeOpt oldNode newNode then Except.ok ChangedType.TextChanged
  else if isVNodeOpt oldNode && isVNodeOpt newNode then
    match oldNode, newNode with
    | some (NodeType.vnode oldName oldAttrs _), some (NodeType.vnode newName newAttrs _) =>
      if oldName ≠ newName then Except.ok ChangedType.NodeChanged
      else if attrsValue oldAttrs ≠ attrsValue newAttrs then Except.ok ChangedType.ValueChanged
      else if stringifyAttrs oldAttrs ≠ stringifyAttrs newAttrs then Except.ok ChangedType.AttrChanged
      else Except.ok ChangedType.None
    | _, _ => Except.error "TypeError: cannot read nodeName of undefined"
  else Except.ok ChangedType.None

/-- A primitive call issued against the existing native tree by the
reconciler.  Calls made while materializing a fresh subtree (inside
`createElement`) construct a detached node and are not native-tree
mutations. -/
inductive Mutation where
  | appendChild
  | removeChild (index : Nat)
  | replaceChild (index : Nat)
  | setAttribute (name value : String)
  | removeAttribute (name : String)
  | setValue (value : String)
deriving DecidableEq, Repr

/-- The native DOM, as far as this library touches it: an element carries its
tag, its attribute list (insertion-ordered, unique names), its registered
event listeners, its `value` property (distinct from the "value" attribute;
`none` until first assigned), and its child nodes; a text node carries its
character data. -/
inductive DomNode where
  | element (tag : String) (attrs : List (String × String))
      (listeners : List (String × AttrValue)) (value : Option String)
      (children : List DomNode)
  | text (content : String)
deriving Repr

/-- `node.childNodes` (a text node has none). -/
def getChildren : DomNode → List DomNode
  | DomNode.element _ _ _ _ kids => kids
  | DomNode.text _ => []

/-- Replace an element's child list (no-op on a text node, which cannot hold
children). -/
def setChildren : DomNode → List DomNode → DomNode
  | DomNode.element t a l v _, kids => DomNode.element t a l v kids
  | DomNode.text s, _ => DomNode.text s

/-- DOMString coercion of the right-hand side of `target.value = newValue`:
`undefined` becomes the string "undefined". -/
def valueToString : Option AttrValue → String
  | none => "undefined"
  | some v => attrToString v

/-- `target.value = newValue` on a node.  Assigning `.value` to a text node
creates an inert expando property, invisible to the modelled tree. -/
def domSetValue (target : DomNode) (v : Option AttrValue) : DomNode :=
  match target with
  | DomNode.element t a l _ kids => DomNode.element t a l (some (valueToString v)) kids
  | DomNode.text s => DomNode.text s

/-- `(newNode as VNode).attributes?.value`: `undefined` when the node is a
leaf (a leaf has no `attributes` property). -/
def nodeValueAttr : NodeType → Option AttrValue
  | NodeType.vnode _ attrs _ => attrsValue attrs
  | _ => none

/-- `setAttribute(name, val)` on an attribute list: overwrite in place when
the name is present, append otherwise. -/
def domSetAttr : List (String × String) → String → String → List (String × String)
  | [], name, val => [(name, val)]
  | (k, w) :: rest, name, val =>
    if k = name then (k, val) :: rest else (k, w) :: domSetAttr rest name val

/-- `target.setAttribute(name, val)` on a node (throws on a text node in the
host; unreachable here, modelled as a no-op). -/
def domSetAttrNode (target : DomNode) (name val : String) : DomNode :=
  match target with
  | DomNode.element t a l v kids => DomNode.element t (domSetAttr a name val) l v kids
  | DomNode.text s => DomNode.text s

/-- `target.removeAttribute(name)` on a node. -/
def domRemoveAttrNode (target : DomNode) (name : String) : DomNode :=
  match target with
  | DomNode.element t a l v kids =>
    DomNode.element t (a.filter (fun p => !(p.1 == name))) l v kids
  | DomNode.text s => DomNode.text s

/-- `setAttributes(target, attributes)` applied to a freshly created element:
one pass over the mapping, event-prefixed names registered via
`addEventListener(attribute.slice(2), value)`, every other name set via
`setAttribute`.  Returns the element's attribute list and listener list. -/
def setAttributes (attributes : Attributes) :
    List (String × String) × List (String × AttrValue) :=
  attributes.foldl
    (fun acc p =>
      if isEventAttr p.1 then (acc.1, acc.2 ++ [(eventNameOf p.1, p.2)])
      else (domSetAttr acc.1 p.1 (attrToString p.2), acc.2))
    ([], [])

/-- `createElement(node)`: materialize a virtual node into a detached native
node.  A leaf becomes a text node holding `node.toString()`. -/
def createElement : NodeType → DomNode
  | NodeType.str s => DomNode.text s
  | NodeType.num n => DomNode.text (toString n)
  | NodeType.vnode name attrs children =>
    DomNode.element name (setAttributes attrs).1 (setAttributes attrs).2 none
      (children.attach.map (fun c => createElement c.1))
termination_by n => sizeOf n
decreasing_by
  have := List.sizeOf_lt_of_mem c.2
  simp only [NodeType.vnode.sizeOf_spec]
  omega

/-- Any value of `List NodeType` has positive size (used by the termination
arguments below). -/
theorem nodeList_sizeOf_pos (l : List NodeType) : 0 < sizeOf l := by
  cases l <;> simp_arith

/-- JS truthiness of a `NodeType` value: `!newNode` holds for the number `0`
and the empty string (an object is always truthy). -/
def isFalsy : NodeType → Bool
  | NodeType.num n => n == 0
  | NodeType.str s => s == ""
  | NodeType.vnode _ _ _ => false

/-- `updateAttributes(target, oldAttributes, newAttributes)`: first loop
removes every non-event attribute named in the old mapping, second loop sets
every non-event attribute named in the new mapping; event-prefixed names are
skipped by both loops. -/
def updateAttributes (target : DomNode) (oldAttributes newAttributes : Attributes) :
    DomNode × List Mutation :=
  let removed := oldAttributes.foldl
    (fun acc p =>
      if isEventAttr p.1 then acc
      else (domRemoveAttrNode acc.1 p.1, acc.2 ++ [Mutation.removeAttribute p.1]))
    (target, ([] : List Mutation))
  newAttributes.foldl
    (fun acc p =>
      if isEventAttr p.1 then acc
      else (domSetAttrNode acc.1 p.1 (attrToString p.2),
            acc.2 ++ [Mutation.setAttribute p.1 (attrToString p.2)]))
    removed

mutual
/-- `updateElement(parent, oldNode, newNode, index)`, expressed on the
parent's child list.  Returns the updated child list and the trace of
primitive calls issued against the existing tree.  Notes on the embedding:

* `typeof oldNode === "undefined"` is `oldNode? = none`;
* `if (!newNode)` is truthiness: it also fires on the present leaves `0` and
  `""` (`isFalsy`);
* the source `switch` has no `break` after the `Type | Text | Node` group, so
  after `replaceChild` control falls through into
  `updateValue(target, (newNode as VNode).attributes?.value)`; `target` is
  the node just detached by `replaceChild`, so the write is recorded in the
  trace but leaves the tree untouched;
* `removeChild`/`replaceChild`/recursion with an out-of-range `index` throw
  in the host (never reached by the library); here they fall back to
  erase/set no-ops and a dummy empty target. -/
def updateElement (parentChildren : List DomNode)
    (oldNode? newNode? : Option NodeType) (index : Nat) :
    List DomNode × List Mutation :=
  match oldNode? with
  | none =>
    match newNode? with
    | some newNode => (parentChildren ++ [createElement newNode], [Mutation.appendChild])
    | none => (parentChildren, [])
  | some oldNode =>
    match newNode? with
    | none => (parentChildren.eraseIdx index, [Mutation.removeChild index])
    | some newNode =>
      if isFalsy newNode then
        (parentChildren.eraseIdx index, [Mutation.removeChild index])
      else
        applyChange (detectVirtualDOMDifference oldNode newNode)
          parentChildren oldNode newNode index
termination_by sizeOf oldNode? + sizeOf newNode?
decreasing_by
  all_goals simp_wf
  all_goals omega

/-- The `switch (changeType)` of `updateElement`, reached once both nodes are
present and `newNode` is truthy; `changeType` is the classification just
computed.  The `Type`, `Text` and `Node` cases share the `replaceChild` and
(through the missing `break`) the subsequent `updateValue` on the detached
node; `Value` writes the value property of the in-tree node; `Attr` applies
`updateAttributes` and returns; `None` falls out of the `switch` into the
child loop (which is guarded by `isVNode(oldNode) && isVNode(newNode)`). -/
def applyChange (changeType : ChangedType) (parentChildren : List DomNode)
    (oldNode newNode : NodeType) (index : Nat) : List DomNode × List Mutation :=
  match changeType with
  | ChangedType.TypeChanged =>
    (parentChildren.set index (createElement newNode),
     [Mutation.replaceChild index,
      Mutation.setValue (valueToString (nodeValueAttr newNode))])
  | ChangedType.TextChanged =>
    (parentChildren.set index (createElement newNode),
     [Mutation.replaceChild index,
      Mutation.setValue (valueToString (nodeValueAttr newNode))])
  | ChangedType.NodeChanged =>
    (parentChildren.set index (createElement newNode),
     [Mutation.replaceChild index,
      Mutation.setValue (valueToString (nodeValueAttr newNode))])
  | ChangedType.ValueChanged =>
    (parentChildren.modify (fun t => domSetValue t (nodeValueAttr newNode)) index,
     [Mutation.setValue (valueToString (nodeValueAttr newNode))])
  | ChangedType.AttrChanged =>
    match oldNode, newNode with
    | NodeType.vnode _ oldAttrs _, NodeType.vnode _ newAttrs _ =>
      let target := (parentChildren.get? index).getD (DomNode.text "")
      let r := updateAttributes target oldAttrs newAttrs
      (parentChildren.set index r.1, r.2)
    | _, _ => (parentChildren, [])
  | ChangedType.None =>
    match oldNode, newNode with
    | NodeType.vnode _ _ oldChildren, NodeType.vnode _ _ newChildren =>
      let target := (parentChildren.get? index).getD (DomNode.text "")
      let r := updateChildrenAux (getChildren target) oldChildren newChildren 0
      (parentChildren.set index (setChildren target r.1), r.2)
    | _, _ => (parentChildren, [])
termination_by sizeOf oldNode + sizeOf newNode
decreasing_by
  all_goals simp_wf
  all_goals omega

/-- The child loop
`for (i = 0; i < new.children.length || i < old.children.length; i++)
   updateElement(target, old.children[i], new.children[i], i)`
walked in lockstep; an exhausted side passes `undefined`. -/
def updateChildrenAux (kids : List DomNode) (oldChildren newChildren : List NodeType)
    (i : Nat) : List DomNode × List Mutation :=
  match oldChildren, newChildren with
  | [], [] => (kids, [])
  | o :: os, [] =>
    let r := updateElement kids (some o) none i
    let r2 := updateChildrenAux r.1 os [] (i + 1)
    (r2.1, r.2 ++ r2.2)
  | [], n :: ns =>
    let r := updateElement kids none (some n) i
    let r2 := updateChildrenAux r.1 [] ns (i + 1)
    (r2.1, r.2 ++ r2.2)
  | o :: os, n :: ns =>
    let r := updateElement kids (some o) (some n) i
    let r2 := updateChildrenAux r.1 os ns (i + 1)
    (r2.1, r.2 ++ r2.2)
termination_by sizeOf oldChildren + sizeOf newChildren
decreasing_by
  all_goals simp_wf
  all_goals try omega
  all_goals first
    | (have h1 := nodeList_sizeOf_pos os; omega)
    | (have h1 := nodeList_sizeOf_pos ns; omega)
end

/-! ### The application shell (`app.ts`)

`class App` holds the state, the view, the wrapped actions, the previous and
next virtual trees (`oldNode`/`newNode`), and the coalescing flag
(`skipRender`).  `pendingRenders` counts the `setTimeout(render)` callbacks
sitting in the host task queue (0 or 1 in every reachable state). -/

/-- The mutable fields of `App`, plus the length of the host task queue. -/
structure SchedState (S : Type) where
  state : S
  oldNode : Option NodeType
  newNode : Option NodeType
  skipRender : Bool
  pendingRenders : Nat

/-- One invocation of a wrapped action as produced by `dispatchAction`:
run the user action (`state` is updated in place), then `resolveNode()`
(which recomputes `newNode = view(state, actions)` and calls
`scheduleRender()`; `scheduleRender` enqueues one `render` callback unless
one is already pending). -/
def dispatchAction {S : Type} (view : S → NodeType) (action : S → S)
    (a : SchedState S) : SchedState S :=
  let s := action a.state
  let nn := view s
  if a.skipRender then
    { a with state := s, newNode := some nn }
  else
    { a with state := s, newNode := some nn, skipRender := true,
             pendingRenders := a.pendingRenders + 1 }

/-- `render()`, run when the host dequeues the scheduled callback: on the
first run (`oldNode` absent) append the materialized `newNode` to the mount
point, otherwise reconcile `oldNode` against `newNode`; afterward set
`oldNode = newNode` and clear `skipRender`.  (The `none`/`none` branch would
crash in the host, but the constructor always resolves `newNode` first.) -/
def render {S : Type} (a : SchedState S) (dom : List DomNode) :
    SchedState S × (List DomNode × List Mutation) :=
  let out :=
    match a.oldNode with
    | some o => updateElement dom (some o) a.newNode 0
    | none =>
      match a.newNode with
      | some nn => (dom ++ [createElement nn], [Mutation.appendChild])
      | none => (dom, [])
  ({ a with oldNode := a.newNode, skipRender := false,
            pendingRenders := a.pendingRenders - 1 }, out)

/-! ### Comparison and well-formedness helpers

These definitions are not part of the source; they name notions the
specification quantifies over (order-independent structural equality,
read-back of a materialized tree, absence of falsy leaves), so that the
claims can be stated. -/

mutual
/-- Structural equality of virtual trees by value, with attribute mappings
compared order-independently (as mappings), as the specification assumes. -/
def structurallyEqualOI : NodeType → NodeType → Bool
  | NodeType.str a, NodeType.str b => a == b
  | NodeType.num a, NodeType.num b => a == b
  | NodeType.vnode t1 a1 c1, NodeType.vnode t2 a2 c2 =>
    t1 == t2 && decide (List.Perm a1 a2) && structurallyEqualOIList c1 c2
  | _, _ => false
termination_by a _ => sizeOf a

/-- Positional lifting of `structurallyEqualOI` to child lists. -/
def structurallyEqualOIList : List NodeType → List NodeType → Bool
  | [], [] => true
  | x :: xs, y :: ys => structurallyEqualOI x y && structurallyEqualOIList xs ys
  | _, _ => false
termination_by l _ => sizeOf l
end

/-- Reassemble an attribute mapping from a materialized element: every native
attribute as a string-valued binding, every registered listener as an
"on"-prefixed binding. -/
def readBackAttrs (nattrs : List (String × String))
    (listeners : List (String × AttrValue)) : Attributes :=
  nattrs.map (fun p => (p.1, AttrValue.str p.2)) ++
    listeners.map (fun p => ("on" ++ p.1, p.2))

/-- Read the structure of a native tree back as a virtual tree: tag,
reassembled attributes and children of an element; the text content of a
leaf. -/
def readBack : DomNode → NodeType
  | DomNode.text s => NodeType.str s
  | DomNode.element tag nattrs listeners _ kids =>
    NodeType.vnode tag (readBackAttrs nattrs listeners)
      (kids.attach.map (fun c => readBack c.1))
termination_by d => sizeOf d
decreasing_by
  have := List.sizeOf_lt_of_mem c.2
  simp only [DomNode.element.sizeOf_spec]
  omega

mutual
/-- The read-back tree matches the original declared structure: equal tags,
attribute mappings equal as mappings (order-independent), children matching
positionally, and a leaf matching via its text content (a number leaf
matches its decimal string form, which is what its materialized text node
holds). -/
def readBackMatches : NodeType → NodeType → Bool
  | NodeType.str a, NodeType.str b => a == b
  | NodeType.str a, NodeType.num b => a == toString b
  | NodeType.vnode t1 a1 c1, NodeType.vnode t2 a2 c2 =>
    t1 == t2 && decide (List.Perm a1 a2) && readBackMatchesList c1 c2
  | _, _ => false
termination_by a _ => sizeOf a

/-- Positional lifting of `readBackMatches` to child lists. -/
def readBackMatchesList : List NodeType → List NodeType → Bool
  | [], [] => true
  | x :: xs, y :: ys => readBackMatches x y && readBackMatchesList xs ys
  | _, _ => false
termination_by l _ => sizeOf l
end

/-- An attribute mapping as a JS object literal can produce: unique keys; and
(for the round-trip claim) every non-event binding holds a string, since a
callback stored under a non-event name is stringified by `setAttribute` and
cannot be read back. -/
def wellFormedAttrs (attrs : Attributes) : Bool :=
  decide (attrs.map Prod.fst).Nodup &&
    attrs.all (fun p =>
      isEventAttr p.1 ||
        match p.2 with
        | AttrValue.str _ => true
        | AttrValue.fn _ => false)

mutual
/-- `wellFormedAttrs` at every element of a virtual tree. -/
def wellFormed : NodeType → Bool
  | NodeType.str _ => true
  | NodeType.num _ => true
  | NodeType.vnode _ attrs children =>
    wellFormedAttrs attrs && wellFormedList children
termination_by n => sizeOf n

/-- `wellFormed` at every member of a child list. -/
def wellFormedList : List NodeType → Bool
  | [] => true
  | x :: xs => wellFormed x && wellFormedList xs
termination_by l => sizeOf l
end

mutual
/-- No leaf of the tree is a JS-falsy value (the number `0` or the empty
string). -/
def noFalsyLeaf : NodeType → Bool
  | NodeType.str s => !(s == "")
  | NodeType.num n => !(n == 0)
  | NodeType.vnode _ _ children => noFalsyLeafList children
termination_by n => sizeOf n

/-- `noFalsyLeaf` at every member of a child list. -/
def noFalsyLeafList : List NodeType → Bool
  | [] => true
  | x :: xs => noFalsyLeaf x && noFalsyLeafList xs
termination_by l => sizeOf l
end

/-- Does a mutation name an event-prefixed attribute? -/
def mutationNamesEventAttr : Mutation → Bool
  | Mutation.setAttribute n _ => isEventAttr n
  | Mutation.removeAttribute n => isEventAttr n
  | _ => false

/-- Did classification succeed (no thrown `TypeError`)? -/
def exceptIsOk : Except String ChangedType → Bool
  | Except.ok _ => true
  | Except.error _ => false

/-! ### Helper lemmas -/

/-- Comparing any virtual node against itself detects no difference. -/
theorem detect_self (x : NodeType) : detectVirtualDOMDifference x x = ChangedType.None := by
  cases x <;> simp [detectVirtualDOMDifference, typeOf, isVNode, leafNe]

/-- Induction over `NodeType` with a membership-based hypothesis for the
children of an element. -/
theorem NodeType.indOn {motive : NodeType → Prop}
    (hstr : ∀ s, motive (NodeType.str s))
    (hnum : ∀ n, motive (NodeType.num n))
    (hv : ∀ t a c, (∀ x ∈ c, motive x) → motive (NodeType.vnode t a c))
    (n : NodeType) : motive n :=
  match n with
  | NodeType.str s => hstr s
  | NodeType.num m => hnum m
  | NodeType.vnode t a c =>
    hv t a c (fun x hx => NodeType.indOn hstr hnum hv x)
termination_by sizeOf n
decreasing_by
  have := List.sizeOf_lt_of_mem hx
  simp only [NodeType.vnode.sizeOf_spec]
  omega

/-- The remove phase of `updateAttributes`: the emitted trace is the start
trace followed by one `removeAttribute` per non-event binding of the old
mapping, in order. -/
theorem removePhase_trace (oa : Attributes) :
    ∀ (t : DomNode) (tr : List Mutation),
    (oa.foldl (fun acc p =>
        if isEventAttr p.1 then acc
        else (domRemoveAttrNode acc.1 p.1, acc.2 ++ [Mutation.removeAttribute p.1]))
      (t, tr)).2 =
      tr ++ (oa.filter (fun p => !isEventAttr p.1)).map
        (fun p => Mutation.removeAttribute p.1) := by
  induction oa with
  | nil => intro t tr; simp
  | cons p ps ih =>
    intro t tr
    by_cases he : isEventAttr p.1 <;> simp [he, ih]

/-- The set phase of `updateAttributes`: the emitted trace is the start trace
followed by one `setAttribute` per non-event binding of the new mapping, in
order. -/
theorem setPhase_trace (na : Attributes) :
    ∀ (t : DomNode) (tr : List Mutation),
    (na.foldl (fun acc p =>
        if isEventAttr p.1 then acc
        else (domSetAttrNode acc.1 p.1 (attrToString p.2),
              acc.2 ++ [Mutation.setAttribute p.1 (attrToString p.2)]))
      (t, tr)).2 =
      tr ++ (na.filter (fun p => !isEventAttr p.1)).map
        (fun p => Mutation.setAttribute p.1 (attrToString p.2)) := by
  induction na with
  | nil => intro t tr; simp
  | cons p ps ih =>
    intro t tr
    by_cases he : isEventAttr p.1 <;> simp [he, ih]

/-- The whole trace of `updateAttributes`: every old non-event attribute is
removed, then every new non-event attribute is set. -/
theorem updateAttributes_trace (target : DomNode) (oa na : Attributes) :
    (updateAttributes target oa na).2 =
      (oa.filter (fun p => !isEventAttr p.1)).map
        (fun p => Mutation.removeAttribute p.1) ++
      (na.filter (fun p => !isEventAttr p.1)).map
        (fun p => Mutation.setAttribute p.1 (attrToString p.2)) := by
  unfold updateAttributes
  rw [setPhase_trace, removePhase_trace]
  simp

/-- `removeAttribute` does not touch a node's children. -/
theorem getChildren_domRemoveAttrNode (t : DomNode) (n : String) :
    getChildren (domRemoveAttrNode t n) = getChildren t := by
  cases t <;> rfl

/-- `setAttribute` does not touch a node's children. -/
theorem getChildren_domSetAttrNode (t : DomNode) (n v : String) :
    getChildren (domSetAttrNode t n v) = getChildren t := by
  cases t <;> rfl

/-- The remove phase does not touch the target's children. -/
theorem removePhase_children (oa : Attributes) :
    ∀ (t : DomNode) (tr : List Mutation),
    getChildren (oa.foldl (fun acc p =>
        if isEventAttr p.1 then acc
        else (domRemoveAttrNode acc.1 p.1, acc.2 ++ [Mutation.removeAttribute p.1]))
      (t, tr)).1 = getChildren t := by
  induction oa with
  | nil => intro t tr; rfl
  | cons p ps ih =>
    intro t tr
    by_cases he : isEventAttr p.1 <;>
      simp [he, ih, getChildren_domRemoveAttrNode]

/-- The set phase does not touch the target's children. -/
theorem setPhase_children (na : Attributes) :
    ∀ (t : DomNode) (tr : List Mutation),
    getChildren (na.foldl (fun acc p =>
        if isEventAttr p.1 then acc
        else (domSetAttrNode acc.1 p.1 (attrToString p.2),
              acc.2 ++ [Mutation.setAttribute p.1 (attrToString p.2)]))
      (t, tr)).1 = getChildren t := by
  induction na with
  | nil => intro t tr; rfl
  | cons p ps ih =>
    intro t tr
    by_cases he : isEventAttr p.1 <;>
      simp [he, ih, getChildren_domSetAttrNode]

/-- `updateAttributes` leaves the target's children untouched. -/
theorem updateAttributes_children (target : DomNode) (oa na : Attributes) :
    getChildren (updateAttributes target oa na).1 = getChildren target := by
  unfold updateAttributes
  have h2 := setPhase_children na
    (oa.foldl (fun acc p =>
        if isEventAttr p.1 then acc
        else (domRemoveAttrNode acc.1 p.1, acc.2 ++ [Mutation.removeAttribute p.1]))
      (target, [])).1
    (oa.foldl (fun acc p =>
        if isEventAttr p.1 then acc
        else (domRemoveAttrNode acc.1 p.1, acc.2 ++ [Mutation.removeAttribute p.1]))
      (target, [])).2
  rw [← removePhase_children oa target []]
  rw [← h2]

/-! ### Claim theorems -/

/-- C1: for two `Element` nodes with the same tag, a differing "value"
attribute, and otherwise identical attribute mappings, classification yields
`ValueChanged` (source: `Value`), and the reconciler only assigns the value
property of the existing native node at that index: the trace is a single
`setValue`, with no replace/remove/append, and the native child keeps its
tag, attributes, listeners and children. -/
theorem c1_value_change_priority (tag : String) (oa na : Attributes)
    (oc nc : List NodeType) (kids : List DomNode) (i : Nat)
    (hv : attrsValue oa ≠ attrsValue na)
    (hrest : oa.filter (fun p => !(p.1 == "value")) = na.filter (fun p => !(p.1 == "value"))) :
    detectVirtualDOMDifference (NodeType.vnode tag oa oc) (NodeType.vnode tag na nc) =
      ChangedType.ValueChanged ∧
    updateElement kids (some (NodeType.vnode tag oa oc)) (some (NodeType.vnode tag na nc)) i =
      (kids.modify (fun t => domSetValue t (attrsValue na)) i,
       [Mutation.setValue (valueToString (attrsValue na))]) := by
  have hd : detectVirtualDOMDifference (NodeType.vnode tag oa oc)
      (NodeType.vnode tag na nc) = ChangedType.ValueChanged := by
    simp [detectVirtualDOMDifference, typeOf, isVNode, hv]
  refine ⟨hd, ?_⟩
  simp [updateElement, applyChange, isFalsy, hd, nodeValueAttr]

/-- C1 witness: a concrete instance (an input whose "value" goes from "a" to
"b" with an unchanged "type" attribute). -/
theorem c1_witness :
    attrsValue [("type", AttrValue.str "text"), ("value", AttrValue.str "a")] ≠
      attrsValue [("type", AttrValue.str "text"), ("value", AttrValue.str "b")] ∧
    detectVirtualDOMDifference
        (NodeType.vnode "input" [("type", AttrValue.str "text"), ("value", AttrValue.str "a")] [])
        (NodeType.vnode "input" [("type", AttrValue.str "text"), ("value", AttrValue.str "b")] []) =
      ChangedType.ValueChanged ∧
    updateElement [DomNode.element "input" [("type", "text"), ("value", "a")] [] none []]
        (some (NodeType.vnode "input"
          [("type", AttrValue.str "text"), ("value", AttrValue.str "a")] []))
        (some (NodeType.vnode "input"
          [("type", AttrValue.str "text"), ("value", AttrValue.str "b")] [])) 0 =
      ([DomNode.element "input" [("type", "text"), ("value", "a")] [] none []].modify
        (fun t => domSetValue t
          (attrsValue [("type", AttrValue.str "text"), ("value", AttrValue.str "b")])) 0,
       [Mutation.setValue (valueToString
          (attrsValue [("type", AttrValue.str "text"), ("value", AttrValue.str "b")]))]) := by
  refine ⟨by decide, ?_, ?_⟩
  · exact (c1_value_change_priority "input" _ _ [] []
      [DomNode.element "input" [("type", "text"), ("value", "a")] [] none []] 0
      (by decide) (by decide)).1
  · exact (c1_value_change_priority "input" _ _ [] []
      [DomNode.element "input" [("type", "text"), ("value", "a")] [] none []] 0
      (by decide) (by decide)).2

/-- C3 counterexample: at a `TextChanged` position the reconciler issues a
`replaceChild` and then, because the source `switch` falls through into the
`Value` case, also a value-property write in the same dispatch — the claim
says no value-property update is performed there. -/
theorem c3_counterexample :
    detectVirtualDOMDifference (NodeType.str "a") (NodeType.str "b") = ChangedType.TextChanged ∧
    (updateElement [DomNode.text "a"] (some (NodeType.str "a")) (some (NodeType.str "b")) 0).2 =
      [Mutation.replaceChild 0, Mutation.setValue "undefined"] := by
  constructor
  · simp [detectVirtualDOMDifference, typeOf, isVNode, leafNe]
  · simp [updateElement, applyChange, isFalsy, detectVirtualDOMDifference, typeOf,
          isVNode, leafNe, nodeValueAttr, valueToString]

/-- C3 amended: at a position classified `TypeChanged`, `TextChanged` or
`TagChanged` (source: `Type`, `Text`, `Node`), the reconciler replaces the
native node at that index with a freshly materialized node and does not
recurse into children, but additionally issues one value-property write
(aimed at the node just detached by `replaceChild`, so the in-tree result is
exactly the fresh node, with its value property untouched). -/
theorem c3_amended (oldNode newNode : NodeType) (kids : List DomNode) (i : Nat)
    (hfalsy : isFalsy newNode = false)
    (h : detectVirtualDOMDifference oldNode newNode = ChangedType.TypeChanged ∨
         detectVirtualDOMDifference oldNode newNode = ChangedType.TextChanged ∨
         detectVirtualDOMDifference oldNode newNode = ChangedType.NodeChanged) :
    updateElement kids (some oldNode) (some newNode) i =
      (kids.set i (createElement newNode),
       [Mutation.replaceChild i,
        Mutation.setValue (valueToString (nodeValueAttr newNode))]) := by
  rcases h with h | h | h <;> simp [updateElement, applyChange, hfalsy, h]

/-- C3 amended, witness: a concrete `TagChanged` pair (`div` → `span`). -/
theorem c3_witness :
    isFalsy (NodeType.vnode "span" [] []) = false ∧
    detectVirtualDOMDifference (NodeType.vnode "div" [] []) (NodeType.vnode "span" [] []) =
      ChangedType.NodeChanged ∧
    updateElement [DomNode.element "div" [] [] none []]
        (some (NodeType.vnode "div" [] [])) (some (NodeType.vnode "span" [] [])) 0 =
      ([DomNode.element "div" [] [] none []].set 0 (createElement (NodeType.vnode "span" [] [])),
       [Mutation.replaceChild 0,
        Mutation.setValue (valueToString (nodeValueAttr (NodeType.vnode "span" [] [])))]) := by
  refine ⟨by decide, by simp [detectVirtualDOMDifference, typeOf, isVNode], ?_⟩
  exact c3_amended (NodeType.vnode "div" [] []) (NodeType.vnode "span" [] [])
    [DomNode.element "div" [] [] none []] 0 (by decide)
    (Or.inr (Or.inr (by simp [detectVirtualDOMDifference, typeOf, isVNode])))

/-- C4: the removal branch is `if (!newNode)`, JS truthiness, not an
absence test: with a present but falsy `newNode` (here the number leaf `0`
against the old leaf `1`) the reconciler removes the native child instead of
classifying the pair (which would yield `TextChanged` and a text update). -/
theorem c4_falsy_leaf_removed :
    updateElement [DomNode.text "1"] (some (NodeType.num 1)) (some (NodeType.num 0)) 0 =
      ([], [Mutation.removeChild 0]) ∧
    detectVirtualDOMDifference (NodeType.num 1) (NodeType.num 0) = ChangedType.TextChanged := by
  constructor
  · simp [updateElement, isFalsy]
  · simp [detectVirtualDOMDifference, typeOf, isVNode, leafNe]

/-- C7 counterexample: classification applied to two absent nodes throws
(`typeof undefined` equals `typeof undefined`, `isVNode(undefined)` is true,
and the tag comparison then reads `nodeName` off `undefined`), so `classify`
is not defined on every pair of `Option` values. -/
theorem c7_counterexample :
    detectVirtualDOMDifferenceOpt none none =
      Except.error "TypeError: cannot read nodeName of undefined" := by
  simp [detectVirtualDOMDifferenceOpt, typeOfOpt, isVNodeOpt, leafNeOpt]

/-- C7 amended: classification is total — returning exactly one
`ChangedType`, never throwing — on every pair of `Option` nodes of which at
least one side is present; only the (absent, absent) pair, which the
reconciler never produces, throws. -/
theorem c7_amended (o n : Option NodeType) (h : (o.isSome || n.isSome) = true) :
    exceptIsOk (detectVirtualDOMDifferenceOpt o n) = true := by
  rcases o with _ | a <;> rcases n with _ | b
  · simp at h
  · cases b <;> simp [detectVirtualDOMDifferenceOpt, typeOfOpt, typeOf, exceptIsOk]
  · cases a <;> simp [detectVirtualDOMDifferenceOpt, typeOfOpt, typeOf, exceptIsOk]
  · cases a <;> cases b <;>
      (try simp only [detectVirtualDOMDifferenceOpt, typeOfOpt, typeOf, isVNodeOpt, isVNode,
        leafNeOpt, leafNe, exceptIsOk]) <;>
      (try split_ifs) <;> simp_all [exceptIsOk]

/-- C7 amended, witness: one side present. -/
theorem c7_witness :
    (((some (NodeType.str "a")).isSome || (none : Option NodeType).isSome) = true) ∧
    exceptIsOk (detectVirtualDOMDifferenceOpt (some (NodeType.str "a")) none) = true :=
  ⟨rfl, c7_amended (some (NodeType.str "a")) none rfl⟩

/-- C10: `updateAttributes` applies a remove-all-then-set-all diff, not a
minimal per-key one: the trace is exactly one `removeAttribute` per
non-event binding of the old mapping (even for bindings present unchanged in
the new mapping), in order, followed by one `setAttribute` per non-event
binding of the new mapping; every old non-event name occurs as a removal;
and no emitted mutation names an "on"-prefixed attribute (listeners are
never added or removed here). -/
theorem c10_remove_all_then_set_all (target : DomNode) (oa na : Attributes) :
    (updateAttributes target oa na).2 =
      (oa.filter (fun p => !isEventAttr p.1)).map
        (fun p => Mutation.removeAttribute p.1) ++
      (na.filter (fun p => !isEventAttr p.1)).map
        (fun p => Mutation.setAttribute p.1 (attrToString p.2)) ∧
    ((oa.filter (fun p => !isEventAttr p.1)).all
      (fun p => decide (Mutation.removeAttribute p.1 ∈ (updateAttributes target oa na).2))) =
      true ∧
    ((updateAttributes target oa na).2.all (fun m => !mutationNamesEventAttr m)) = true := by
  have h1 := updateAttributes_trace target oa na
  refine ⟨h1, ?_, ?_⟩
  · rw [List.all_eq_true]
    intro p hp
    rw [decide_eq_true_eq, h1]
    exact List.mem_append_left _ (List.mem_map_of_mem _ hp)
  · rw [List.all_eq_true]
    intro m hm
    rw [h1] at hm
    rcases List.mem_append.mp hm with hm | hm <;>
      obtain ⟨q, hq, rfl⟩ := List.mem_map.mp hm <;>
      have := (List.mem_filter.mp hq).2 <;>
      simp_all [mutationNamesEventAttr]

/-- C2 counterexample: a pair classified `AttrChanged` whose children also
changed ("x" versus "y"): the attribute diff is applied, but the native
child is left as the text "x" and the trace holds no child mutation — the
reconciler did not recurse into children after the attribute update. -/
theorem c2_counterexample :
    detectVirtualDOMDifference
        (NodeType.vnode "div" [("class", AttrValue.str "a")] [NodeType.str "x"])
        (NodeType.vnode "div" [("class", AttrValue.str "b")] [NodeType.str "y"]) =
      ChangedType.AttrChanged ∧
    updateElement [DomNode.element "div" [("class", "a")] [] none [DomNode.text "x"]]
        (some (NodeType.vnode "div" [("class", AttrValue.str "a")] [NodeType.str "x"]))
        (some (NodeType.vnode "div" [("class", AttrValue.str "b")] [NodeType.str "y"])) 0 =
      ([DomNode.element "div" [("class", "b")] [] none [DomNode.text "x"]],
       [Mutation.removeAttribute "class", Mutation.setAttribute "class" "b"]) := by
  constructor
  · simp [detectVirtualDOMDifference, typeOf, isVNode, attrsValue, stringifyAttrs]
  · have hco : isEventAttr "class" = false := by decide
    simp [updateElement, applyChange, isFalsy, detectVirtualDOMDifference, typeOf, isVNode,
          attrsValue, stringifyAttrs, updateAttributes, hco, domRemoveAttrNode,
          domSetAttrNode, domSetAttr, attrToString]

/-- C2 amended: at an `AttributesChanged` position (two `Element`s) the
reconciler applies the `updateAttributes` diff to the existing native node at
that index and then returns: the target's children are not touched and no
mutation beyond attribute removals/sets is emitted — child positions are
reconciled only when the classification is `None`. -/
theorem c2_amended (t1 t2 : String) (oa na : Attributes) (oc nc : List NodeType)
    (kids : List DomNode) (i : Nat)
    (h : detectVirtualDOMDifference (NodeType.vnode t1 oa oc) (NodeType.vnode t2 na nc) =
      ChangedType.AttrChanged) :
    updateElement kids (some (NodeType.vnode t1 oa oc)) (some (NodeType.vnode t2 na nc)) i =
      (kids.set i (updateAttributes ((kids.get? i).getD (DomNode.text "")) oa na).1,
       (updateAttributes ((kids.get? i).getD (DomNode.text "")) oa na).2) ∧
    getChildren (updateAttributes ((kids.get? i).getD (DomNode.text "")) oa na).1 =
      getChildren ((kids.get? i).getD (DomNode.text "")) ∧
    ((updateAttributes ((kids.get? i).getD (DomNode.text "")) oa na).2.all
      (fun m => match m with
        | Mutation.removeAttribute _ => true
        | Mutation.setAttribute _ _ => true
        | _ => false)) = true := by
  refine ⟨by simp [updateElement, applyChange, isFalsy, h], ?_, ?_⟩
  · exact updateAttributes_children _ oa na
  · rw [List.all_eq_true]
    intro m hm
    rw [updateAttributes_trace] at hm
    rcases List.mem_append.mp hm with hm | hm <;>
      obtain ⟨q, hq, rfl⟩ := List.mem_map.mp hm <;> rfl

/-- C2 amended, witness: the counterexample input, through the amended
theorem. -/
theorem c2_witness :
    detectVirtualDOMDifference
        (NodeType.vnode "div" [("class", AttrValue.str "a")] [NodeType.str "x"])
        (NodeType.vnode "div" [("class", AttrValue.str "b")] [NodeType.str "y"]) =
      ChangedType.AttrChanged ∧
    updateElement [DomNode.element "div" [("class", "a")] [] none [DomNode.text "x"]]
        (some (NodeType.vnode "div" [("class", AttrValue.str "a")] [NodeType.str "x"]))
        (some (NodeType.vnode "div" [("class", AttrValue.str "b")] [NodeType.str "y"])) 0 =
      ([DomNode.element "div" [("class", "a")] [] none [DomNode.text "x"]].set 0
        (updateAttributes
          (([DomNode.element "div" [("class", "a")] [] none [DomNode.text "x"]].get? 0).getD
            (DomNode.text ""))
          [("class", AttrValue.str "a")] [("class", AttrValue.str "b")]).1,
       (updateAttributes
          (([DomNode.element "div" [("class", "a")] [] none [DomNode.text "x"]].get? 0).getD
            (DomNode.text ""))
          [("class", AttrValue.str "a")] [("class", AttrValue.str "b")]).2) ∧
    getChildren (updateAttributes
        (([DomNode.element "div" [("class", "a")] [] none [DomNode.text "x"]].get? 0).getD
          (DomNode.text ""))
        [("class", AttrValue.str "a")] [("class", AttrValue.str "b")]).1 =
      getChildren (([DomNode.element "div" [("class", "a")] [] none [DomNode.text "x"]].get? 0).getD
        (DomNode.text "")) ∧
    ((updateAttributes
        (([DomNode.element "div" [("class", "a")] [] none [DomNode.text "x"]].get? 0).getD
          (DomNode.text ""))
        [("class", AttrValue.str "a")] [("class", AttrValue.str "b")]).2.all
      (fun m => match m with
        | Mutation.removeAttribute _ => true
        | Mutation.setAttribute _ _ => true
        | _ => false)) = true := by
  refine ⟨by simp [detectVirtualDOMDifference, typeOf, isVNode, attrsValue, stringifyAttrs], ?_⟩
  exact c2_amended "div" "div" [("class", AttrValue.str "a")] [("class", AttrValue.str "b")]
    [NodeType.str "x"] [NodeType.str "y"]
    [DomNode.element "div" [("class", "a")] [] none [DomNode.text "x"]] 0
    (by simp [detectVirtualDOMDifference, typeOf, isVNode, attrsValue, stringifyAttrs])

/-- A child list all of whose members pass `noFalsyLeafList` consists of
members passing `noFalsyLeaf`. -/
theorem noFalsyLeafList_mem {c : List NodeType} (h : noFalsyLeafList c = true) :
    ∀ x ∈ c, noFalsyLeaf x = true := by
  induction c with
  | nil => intro x hx; cases hx
  | cons y ys ih =>
    intro x hx
    rw [noFalsyLeafList, Bool.and_eq_true] at h
    rcases List.mem_cons.mp hx with rfl | hx
    · exact h.1
    · exact ih h.2 x hx

/-- Walking a child list against itself emits nothing, provided each member
reconciled against itself emits nothing. -/
theorem updateChildrenAux_diag (c : List NodeType)
    (H : ∀ x ∈ c, ∀ (kids : List DomNode) (i : Nat),
      (updateElement kids (some x) (some x) i).2 = []) :
    ∀ (kids : List DomNode) (i : Nat), (updateChildrenAux kids c c i).2 = [] := by
  induction c with
  | nil => intro kids i; simp [updateChildrenAux]
  | cons x xs ih =>
    intro kids i
    have h1 := H x (List.mem_cons_self x xs) kids i
    have h2 := ih (fun y hy => H y (List.mem_cons_of_mem x hy))
    simp [updateChildrenAux, h1, h2]

/-- C5 counterexample: a pair of trees that are structurally equal by value
with order-independent attribute mappings (the same two bindings, swapped),
yet reconciling them produces native mutations: the serialized-mapping
comparison is order-sensitive, so the pair classifies `AttrChanged` and the
attribute diff runs. -/
theorem c5_counterexample :
    structurallyEqualOI
        (NodeType.vnode "div" [("a", AttrValue.str "1"), ("b", AttrValue.str "2")] [])
        (NodeType.vnode "div" [("b", AttrValue.str "2"), ("a", AttrValue.str "1")] []) = true ∧
    (updateElement
        [createElement (NodeType.vnode "div" [("a", AttrValue.str "1"), ("b", AttrValue.str "2")] [])]
        (some (NodeType.vnode "div" [("a", AttrValue.str "1"), ("b", AttrValue.str "2")] []))
        (some (NodeType.vnode "div" [("b", AttrValue.str "2"), ("a", AttrValue.str "1")] []))
        0).2 =
      [Mutation.removeAttribute "a", Mutation.removeAttribute "b",
       Mutation.setAttribute "b" "2", Mutation.setAttribute "a" "1"] := by
  constructor
  · simp [structurallyEqualOI, structurallyEqualOIList]
    decide
  · have ha : isEventAttr "a" = false := by decide
    have hb : isEventAttr "b" = false := by decide
    simp [updateElement, applyChange, isFalsy, detectVirtualDOMDifference, typeOf, isVNode,
          attrsValue, stringifyAttrs, updateAttributes, ha, hb, domRemoveAttrNode,
          domSetAttrNode, domSetAttr, attrToString]

/-- C5 amended: reconciling the pair (T, T) — the same tree value, so in
particular attribute mappings with identical insertion order — produces zero
native mutations, for every tree T none of whose leaves is JS-falsy (the
number 0 and the empty string are removed by the `if (!newNode)` branch
instead, see C4). -/
theorem c5_amended (T : NodeType) :
    noFalsyLeaf T = true → ∀ (kids : List DomNode) (i : Nat),
      (updateElement kids (some T) (some T) i).2 = [] := by
  induction T using NodeType.indOn with
  | hstr s =>
    intro h kids i
    rw [noFalsyLeaf] at h
    simp only [Bool.not_eq_eq_eq_not, Bool.not_true] at h
    simp [updateElement, applyChange, detect_self, isFalsy, h]
  | hnum n =>
    intro h kids i
    rw [noFalsyLeaf] at h
    simp only [Bool.not_eq_eq_eq_not, Bool.not_true] at h
    simp [updateElement, applyChange, detect_self, isFalsy, h]
  | hv t a c ih =>
    intro h kids i
    rw [noFalsyLeaf] at h
    have hdiag := updateChildrenAux_diag c
      (fun x hx => ih x hx (noFalsyLeafList_mem h x hx))
    simp [updateElement, applyChange, detect_self, isFalsy, hdiag]

/-- C5 amended, witness: a two-child element reconciled against itself. -/
theorem c5_witness :
    noFalsyLeaf (NodeType.vnode "div" [("id", AttrValue.str "x")]
      [NodeType.str "hello", NodeType.num 1]) = true ∧
    (updateElement [] (some (NodeType.vnode "div" [("id", AttrValue.str "x")]
        [NodeType.str "hello", NodeType.num 1]))
      (some (NodeType.vnode "div" [("id", AttrValue.str "x")]
        [NodeType.str "hello", NodeType.num 1])) 0).2 = [] := by
  have hn : noFalsyLeaf (NodeType.vnode "div" [("id", AttrValue.str "x")]
      [NodeType.str "hello", NodeType.num 1]) = true := by
    simp [noFalsyLeaf, noFalsyLeafList]
  exact ⟨hn, c5_amended _ hn [] 0⟩

/-- C9: every `render()` run ends with `oldNode` (the previous tree) equal to
the `newNode` just flushed and the coalescing flag cleared; a dispatched
action never touches `oldNode` and always leaves the flag set (it either
schedules — setting the flag — or coalesces into an already-pending render),
so the flag is set exactly while a reconciliation is scheduled and only
`render` clears it, and only `render` advances `oldNode`. -/
theorem c9_render_invariants {S : Type} (view : S → NodeType) (action : S → S)
    (a : SchedState S) (dom : List DomNode) :
    (render a dom).1.oldNode = a.newNode ∧
    (render a dom).1.skipRender = false ∧
    (dispatchAction view action a).oldNode = a.oldNode ∧
    (dispatchAction view action a).skipRender = true := by
  refine ⟨rfl, rfl, ?_, ?_⟩ <;>
    (cases hs : a.skipRender <;> simp [dispatchAction, hs])

/-- C6: K ≥ 1 wrapped actions dispatched in one synchronous segment
(starting with no render pending) leave exactly one render callback queued,
the coalescing flag set, `oldNode` untouched, the state equal to the K-fold
action iterate and `newNode` equal to the view of that final state; draining
the queue runs the single `render`, which empties the queue and reconciles
the old tree against that final `newNode` (or mounts it on first run). -/
theorem c6_coalescing {S : Type} (view : S → NodeType) (action : S → S) (K : Nat)
    (a0 : SchedState S) (dom : List DomNode)
    (hK : 1 ≤ K) (hs : a0.skipRender = false) (hp : a0.pendingRenders = 0) :
    ((dispatchAction view action)^[K] a0).pendingRenders = 1 ∧
    ((dispatchAction view action)^[K] a0).skipRender = true ∧
    ((dispatchAction view action)^[K] a0).oldNode = a0.oldNode ∧
    ((dispatchAction view action)^[K] a0).state = action^[K] a0.state ∧
    ((dispatchAction view action)^[K] a0).newNode = some (view (action^[K] a0.state)) ∧
    (render ((dispatchAction view action)^[K] a0) dom).1.pendingRenders = 0 ∧
    (render ((dispatchAction view action)^[K] a0) dom).1.oldNode =
      some (view (action^[K] a0.state)) ∧
    (render ((dispatchAction view action)^[K] a0) dom).2 =
      (match a0.oldNode with
       | some o => updateElement dom (some o) (some (view (action^[K] a0.state))) 0
       | none => (dom ++ [createElement (view (action^[K] a0.state))],
                  [Mutation.appendChild])) := by
  have main : ∀ k, 1 ≤ k →
      ((dispatchAction view action)^[k] a0).pendingRenders = 1 ∧
      ((dispatchAction view action)^[k] a0).skipRender = true ∧
      ((dispatchAction view action)^[k] a0).oldNode = a0.oldNode ∧
      ((dispatchAction view action)^[k] a0).state = action^[k] a0.state ∧
      ((dispatchAction view action)^[k] a0).newNode =
        some (view (action^[k] a0.state)) := by
    intro k hk
    induction k with
    | zero => exact absurd hk (by omega)
    | succ m ih =>
      rcases Nat.eq_zero_or_pos m with h0 | hpos
      · subst h0
        simp [dispatchAction, hs, hp]
      · obtain ⟨i1, i2, i3, i4, i5⟩ := ih hpos
        simp only [Function.iterate_succ_apply']
        simp [dispatchAction, i1, i2, i3, i4, i5]
  obtain ⟨p1, p2, p3, p4, p5⟩ := main K hK
  refine ⟨p1, p2, p3, p4, p5, ?_, ?_, ?_⟩
  · simp [render, p1]
  · simp [render, p5]
  · simp only [render]
    rw [p3, p5]

/-- C6 witness: two increments on an integer counter, starting from a
mounted state. -/
theorem c6_witness :
    ((dispatchAction (fun s : Int => NodeType.num s) (fun s => s + 1))^[2]
        ⟨0, some (NodeType.num 0), some (NodeType.num 0), false, 0⟩).pendingRenders = 1 ∧
    ((dispatchAction (fun s : Int => NodeType.num s) (fun s => s + 1))^[2]
        ⟨0, some (NodeType.num 0), some (NodeType.num 0), false, 0⟩).skipRender = true ∧
    ((dispatchAction (fun s : Int => NodeType.num s) (fun s => s + 1))^[2]
        ⟨0, some (NodeType.num 0), some (NodeType.num 0), false, 0⟩).oldNode =
      (⟨0, some (NodeType.num 0), some (NodeType.num 0), false, 0⟩ : SchedState Int).oldNode ∧
    ((dispatchAction (fun s : Int => NodeType.num s) (fun s => s + 1))^[2]
        ⟨0, some (NodeType.num 0), some (NodeType.num 0), false, 0⟩).state =
      (fun s : Int => s + 1)^[2]
        (⟨0, some (NodeType.num 0), some (NodeType.num 0), false, 0⟩ : SchedState Int).state ∧
    ((dispatchAction (fun s : Int => NodeType.num s) (fun s => s + 1))^[2]
        ⟨0, some (NodeType.num 0), some (NodeType.num 0), false, 0⟩).newNode =
      some ((fun s : Int => NodeType.num s) ((fun s : Int => s + 1)^[2]
        (⟨0, some (NodeType.num 0), some (NodeType.num 0), false, 0⟩ : SchedState Int).state)) ∧
    (render ((dispatchAction (fun s : Int => NodeType.num s) (fun s => s + 1))^[2]
        ⟨0, some (NodeType.num 0), some (NodeType.num 0), false, 0⟩)
        [DomNode.text "0"]).1.pendingRenders = 0 ∧
    (render ((dispatchAction (fun s : Int => NodeType.num s) (fun s => s + 1))^[2]
        ⟨0, some (NodeType.num 0), some (NodeType.num 0), false, 0⟩)
        [DomNode.text "0"]).1.oldNode =
      some ((fun s : Int => NodeType.num s) ((fun s : Int => s + 1)^[2]
        (⟨0, some (NodeType.num 0), some (NodeType.num 0), false, 0⟩ : SchedState Int).state)) ∧
    (render ((dispatchAction (fun s : Int => NodeType.num s) (fun s => s + 1))^[2]
        ⟨0, some (NodeType.num 0), some (NodeType.num 0), false, 0⟩)
        [DomNode.text "0"]).2 =
      (match (⟨0, some (NodeType.num 0), some (NodeType.num 0), false, 0⟩ :
          SchedState Int).oldNode with
       | some o => updateElement [DomNode.text "0"] (some o)
          (some ((fun s : Int => NodeType.num s) ((fun s : Int => s + 1)^[2]
            (⟨0, some (NodeType.num 0), some (NodeType.num 0), false, 0⟩ :
              SchedState Int).state))) 0
       | none => ([DomNode.text "0"] ++ [createElement ((fun s : Int => NodeType.num s)
          ((fun s : Int => s + 1)^[2]
            (⟨0, some (NodeType.num 0), some (NodeType.num 0), false, 0⟩ :
              SchedState Int).state))], [Mutation.appendChild])) :=
  c6_coalescing (fun s : Int => NodeType.num s) (fun s => s + 1) 2
    ⟨0, some (NodeType.num 0), some (NodeType.num 0), false, 0⟩ [DomNode.text "0"]
    (by decide) rfl rfl

/-- Recombining a registered listener name: for an event-prefixed attribute
name, "on" ++ slice(2) is the original name. -/
theorem onPrefix_eventNameOf (k : String) (h : isEventAttr k = true) :
    "on" ++ eventNameOf k = k := by
  rw [isEventAttr] at h
  have h2 : k.take 2 = "on" := beq_iff_eq.mp h
  have h3 : k.data.take 2 = ['o', 'n'] := by
    have := congrArg String.data h2
    simpa using this
  rw [eventNameOf]
  apply String.ext
  have h4 : ("on" ++ String.drop k 2).data = "on".data ++ (String.drop k 2).data := by
    simp
  rw [h4]
  simp only [String.data_drop]
  rw [← h3]
  exact List.take_append_drop 2 k.data

/-- Members of a well-formed child list are well-formed. -/
theorem wellFormedList_mem {c : List NodeType} (h : wellFormedList c = true) :
    ∀ x ∈ c, wellFormed x = true := by
  induction c with
  | nil => intro x hx; cases hx
  | cons y ys ih =>
    intro x hx
    rw [wellFormedList, Bool.and_eq_true] at h
    rcases List.mem_cons.mp hx with rfl | hx
    · exact h.1
    · exact ih h.2 x hx

/-- A well-formed attribute mapping has pairwise-distinct keys. -/
theorem wellFormedAttrs_nodup {attrs : Attributes} (h : wellFormedAttrs attrs = true) :
    (attrs.map Prod.fst).Nodup := by
  rw [wellFormedAttrs, Bool.and_eq_true] at h
  exact of_decide_eq_true h.1

/-- In a well-formed mapping, the string coercion of a non-event value is the
value itself. -/
theorem wellFormedAttrs_str {attrs : Attributes} (h : wellFormedAttrs attrs = true) :
    ∀ p ∈ attrs, isEventAttr p.1 = false → AttrValue.str (attrToString p.2) = p.2 := by
  rw [wellFormedAttrs, Bool.and_eq_true] at h
  intro p hp he
  have h2 := List.all_eq_true.mp h.2 p hp
  rw [he, Bool.false_or] at h2
  cases hv : p.2 with
  | str s => rfl
  | fn id => rw [hv] at h2; simp at h2

/-- The listener list built by `setAttributes`: one entry per event-prefixed
binding, in order, with the "on" prefix stripped. -/
theorem setAttributes_snd_general (attrs : Attributes) :
    ∀ (acc1 : List (String × String)) (acc2 : List (String × AttrValue)),
    (attrs.foldl (fun acc p =>
        if isEventAttr p.1 then (acc.1, acc.2 ++ [(eventNameOf p.1, p.2)])
        else (domSetAttr acc.1 p.1 (attrToString p.2), acc.2)) (acc1, acc2)).2 =
      acc2 ++ (attrs.filter (fun p => isEventAttr p.1)).map
        (fun p => (eventNameOf p.1, p.2)) := by
  induction attrs with
  | nil => intro a1 a2; simp
  | cons p ps ih =>
    intro a1 a2
    by_cases he : isEventAttr p.1 <;> simp [he, ih]

/-- `setAttributes` registers exactly the event-prefixed bindings. -/
theorem setAttributes_snd (attrs : Attributes) :
    (setAttributes attrs).2 =
      (attrs.filter (fun p => isEventAttr p.1)).map (fun p => (eventNameOf p.1, p.2)) := by
  rw [setAttributes, setAttributes_snd_general]
  simp

/-- `setAttribute` with a name not yet present appends the binding. -/
theorem domSetAttr_append (l : List (String × String)) (name v : String)
    (h : name ∉ l.map Prod.fst) : domSetAttr l name v = l ++ [(name, v)] := by
  induction l with
  | nil => rfl
  | cons q qs ih =>
    obtain ⟨k, w⟩ := q
    simp only [List.map_cons, List.mem_cons] at h
    push_neg at h
    rw [domSetAttr, if_neg (fun hkn => h.1 hkn.symm), ih h.2]
    rfl

/-- The attribute list built by `setAttributes` on a fresh element, when the
incoming keys are distinct: one stringified entry per non-event binding, in
order. -/
theorem setAttributes_fst_general (attrs : Attributes) :
    ∀ (acc1 : List (String × String)) (acc2 : List (String × AttrValue)),
    (attrs.map Prod.fst).Nodup →
    (∀ k ∈ attrs.map Prod.fst, k ∉ acc1.map Prod.fst) →
    (attrs.foldl (fun acc p =>
        if isEventAttr p.1 then (acc.1, acc.2 ++ [(eventNameOf p.1, p.2)])
        else (domSetAttr acc.1 p.1 (attrToString p.2), acc.2)) (acc1, acc2)).1 =
      acc1 ++ (attrs.filter (fun p => !isEventAttr p.1)).map
        (fun p => (p.1, attrToString p.2)) := by
  induction attrs with
  | nil => intro a1 a2 _ _; simp
  | cons p ps ih =>
    intro a1 a2 hnd hdisj
    rw [List.map_cons, List.nodup_cons] at hnd
    by_cases he : isEventAttr p.1
    · rw [List.foldl_cons]
      rw [if_pos he]
      rw [ih a1 (a2 ++ [(eventNameOf p.1, p.2)]) hnd.2
        (fun k hk => hdisj k (List.mem_cons_of_mem _ hk))]
      simp [he]
    · rw [List.foldl_cons, if_neg he]
      have hnot : p.1 ∉ a1.map Prod.fst := hdisj p.1 (List.mem_cons_self _ _)
      rw [domSetAttr_append a1 p.1 (attrToString p.2) hnot]
      rw [ih (a1 ++ [(p.1, attrToString p.2)]) a2 hnd.2 ?_]
      · simp [he]
      · intro k hk
        simp only [List.map_append, List.mem_append]
        rintro (hka | hkp)
        · exact hdisj k (List.mem_cons_of_mem _ hk) hka
        · have hk1 : k = p.1 := by simpa using hkp
          exact hnd.1 (hk1 ▸ hk)

/-- `setAttributes` on distinct keys: the native attributes are the non-event
bindings, stringified, in order. -/
theorem setAttributes_fst (attrs : Attributes)
    (hnd : (attrs.map Prod.fst).Nodup) :
    (setAttributes attrs).1 =
      (attrs.filter (fun p => !isEventAttr p.1)).map
        (fun p => (p.1, attrToString p.2)) := by
  rw [setAttributes, setAttributes_fst_general attrs [] [] hnd (by simp)]
  simp

/-- `createElement` on an element, with the child traversal exposed as a
plain `map`. -/
theorem createElement_vnode (t : String) (a : Attributes) (c : List NodeType) :
    createElement (NodeType.vnode t a c) =
      DomNode.element t (setAttributes a).1 (setAttributes a).2 none
        (c.map createElement) := by
  rw [createElement]
  congr 1
  rw [List.attach_map_coe]

/-- `readBack` on an element, with the child traversal exposed as a plain
`map`. -/
theorem readBack_element (t : String) (na : List (String × String))
    (ls : List (String × AttrValue)) (v : Option String) (kids : List DomNode) :
    readBack (DomNode.element t na ls v kids) =
      NodeType.vnode t (readBackAttrs na ls) (kids.map readBack) := by
  rw [readBack]
  congr 1
  rw [List.attach_map_coe]

/-- Reading back the attributes of a materialized element recovers the
original well-formed mapping up to permutation (non-event bindings come
first, then the re-prefixed listeners). -/
theorem readBackAttrs_perm (attrs : Attributes) (h : wellFormedAttrs attrs = true) :
    List.Perm (readBackAttrs (setAttributes attrs).1 (setAttributes attrs).2) attrs := by
  rw [readBackAttrs, setAttributes_fst attrs (wellFormedAttrs_nodup h), setAttributes_snd]
  rw [List.map_map, List.map_map]
  have hA : (attrs.filter (fun p => !isEventAttr p.1)).map
      ((fun p => (p.1, AttrValue.str p.2)) ∘ (fun p => (p.1, attrToString p.2))) =
      attrs.filter (fun p => !isEventAttr p.1) := by
    have hcongr : ∀ p ∈ attrs.filter (fun p => !isEventAttr p.1),
        ((fun p => (p.1, AttrValue.str p.2)) ∘ (fun p => (p.1, attrToString p.2))) p = p := by
      intro p hp
      obtain ⟨hmem, hne⟩ := List.mem_filter.mp hp
      have he : isEventAttr p.1 = false := by simpa using hne
      have hstr := wellFormedAttrs_str h p hmem he
      simp only [Function.comp_apply]
      rw [hstr]
    rw [List.map_congr_left hcongr]
    simp
  have hL : (attrs.filter (fun p => isEventAttr p.1)).map
      ((fun p => ("on" ++ p.1, p.2)) ∘ (fun p => (eventNameOf p.1, p.2))) =
      attrs.filter (fun p => isEventAttr p.1) := by
    have hcongr : ∀ p ∈ attrs.filter (fun p => isEventAttr p.1),
        ((fun p => ("on" ++ p.1, p.2)) ∘ (fun p => (eventNameOf p.1, p.2))) p = p := by
      intro p hp
      obtain ⟨hmem, he⟩ := List.mem_filter.mp hp
      simp only [Function.comp_apply]
      rw [onPrefix_eventNameOf p.1 he]
    rw [List.map_congr_left hcongr]
    simp
  rw [hA, hL]
  have hp2 := List.filter_append_perm (fun p => !isEventAttr p.1) attrs
  have heq : attrs.filter (fun p => !!isEventAttr p.1) =
      attrs.filter (fun p => isEventAttr p.1) := by
    apply List.filter_congr
    intro p _
    simp
  rw [← heq]
  exact hp2

/-- Lifting the per-node round-trip property through a child list. -/
theorem readBackMatchesList_map (c : List NodeType)
    (H : ∀ x ∈ c, readBackMatches (readBack (createElement x)) x = true) :
    readBackMatchesList (c.map (fun x => readBack (createElement x))) c = true := by
  induction c with
  | nil => simp [readBackMatchesList]
  | cons x xs ih =>
    rw [List.map_cons, readBackMatchesList, Bool.and_eq_true]
    exact ⟨H x (List.mem_cons_self _ _),
           ih (fun y hy => H y (List.mem_cons_of_mem _ hy))⟩

/-- C8 counterexample: a callback stored under a non-event attribute name
("class") is stringified by `setAttribute` during materialization, so
reading the native tree back does not recover the declared structure — the
read-back tree differs from the original both under order-independent
structural equality and under the leaf-by-text-content comparison. -/
theorem c8_counterexample :
    readBack (createElement (NodeType.vnode "div" [("class", AttrValue.fn 0)] [])) =
      NodeType.vnode "div" [("class", AttrValue.str ("function " ++ toString 0))] [] ∧
    structurallyEqualOI
      (readBack (createElement (NodeType.vnode "div" [("class", AttrValue.fn 0)] [])))
      (NodeType.vnode "div" [("class", AttrValue.fn 0)] []) = false ∧
    readBackMatches
      (readBack (createElement (NodeType.vnode "div" [("class", AttrValue.fn 0)] [])))
      (NodeType.vnode "div" [("class", AttrValue.fn 0)] []) = false := by
  have hc : isEventAttr "class" = false := by decide
  refine ⟨?_, ?_, ?_⟩
  · simp [createElement, readBack, setAttributes, readBackAttrs, hc, attrToString,
          domSetAttr]
  · simp [createElement, readBack, setAttributes, readBackAttrs, hc, attrToString,
          domSetAttr, structurallyEqualOI]
  · simp [createElement, readBack, setAttributes, readBackAttrs, hc, attrToString,
          domSetAttr, readBackMatches]

/-- C8 amended: for every virtual tree whose attribute mappings have distinct
keys and hold strings under every non-event name, materializing with
`createElement` and reading the native tree back (tag, attributes with
listeners re-prefixed, children, text content of leaves) recovers the
declared structure, with attribute mappings compared as mappings
(order-independently) and a number leaf recovered as the decimal string its
text node holds. -/
theorem c8_amended (n : NodeType) :
    wellFormed n = true → readBackMatches (readBack (createElement n)) n = true := by
  induction n using NodeType.indOn with
  | hstr s => intro _; simp [createElement, readBack, readBackMatches]
  | hnum m => intro _; simp [createElement, readBack, readBackMatches]
  | hv t a c ih =>
    intro h
    rw [wellFormed, Bool.and_eq_true] at h
    rw [createElement_vnode, readBack_element, readBackMatches]
    have hperm := readBackAttrs_perm a h.1
    have hlist : readBackMatchesList (List.map (readBack ∘ createElement) c) c = true := by
      have hm := readBackMatchesList_map c
        (fun x hx => ih x hx (wellFormedList_mem h.2 x hx))
      simpa [Function.comp] using hm
    simp [hperm, hlist]

/-- C8 amended, witness: an element with a string attribute, a listener and
two leaves. -/
theorem c8_witness :
    wellFormed (NodeType.vnode "div" [("class", AttrValue.str "a"), ("onclick", AttrValue.fn 7)]
      [NodeType.num 0, NodeType.str "hi"]) = true ∧
    readBackMatches
      (readBack (createElement (NodeType.vnode "div"
        [("class", AttrValue.str "a"), ("onclick", AttrValue.fn 7)]
        [NodeType.num 0, NodeType.str "hi"])))
      (NodeType.vnode "div" [("class", AttrValue.str "a"), ("onclick", AttrValue.fn 7)]
        [NodeType.num 0, NodeType.str "hi"]) = true := by
  have hw : wellFormed (NodeType.vnode "div"
      [("class", AttrValue.str "a"), ("onclick", AttrValue.fn 7)]
      [NodeType.num 0, NodeType.str "hi"]) = true := by
    simp [wellFormed, wellFormedList, wellFormedAttrs]
    decide
  exact ⟨hw, c8_amended _ hw⟩

end VDom
